import Mathlib

/-!
Verification development for the wallet-service ledger and reconciliation
engine.  The definitions below are a shallow embedding of the TypeScript
source: `Wallet` and `Transaction` mirror the Sequelize models
(src/models/Wallet.ts, src/models/Transaction.ts), `transferFunds` mirrors
`WalletService.transferFunds` (src/services/walletService.ts), and the
`process*` functions mirror the webhook handlers of
`PaystackService` (src/services/paystackService.ts).  Monetary values are
rationals; JavaScript `toFixed(2)` is embedded as exact decimal rounding,
half away from zero, following the ECMAScript `toFixed` algorithm on the
decimal value.  Database state is explicit: a record of wallet rows,
transaction rows, and an id counter; Sequelize row updates are embedded as
replacement-by-primary-key in the row list, and a rolled-back unit of work
returns the caller's original state.  `transferFunds` additionally returns
the list of wallet ids on which it acquired a row lock, in acquisition
order, so that lock-ordering statements can be made.
-/

namespace WalletSvc

/-- Rounding half away from zero to an integer, the ECMAScript
`Number.prototype.toFixed` rounding rule applied to the scaled value. -/
def roundHalfAway (q : ℚ) : ℤ :=
  if 0 ≤ q then ⌊q + 1/2⌋ else -⌊-q + 1/2⌋

/-- JavaScript `parseFloat(x.toFixed(2))` on the exact decimal value:
round to two fractional digits, half away from zero. -/
def toFixed2 (x : ℚ) : ℚ :=
  (roundHalfAway (100 * x) : ℚ) / 100

/-- A value representable with two fractional decimal digits. -/
def TwoDec (x : ℚ) : Prop := ∃ n : ℤ, x = (n : ℚ) / 100

theorem roundHalfAway_intCast (n : ℤ) : roundHalfAway (n : ℚ) = n := by
  unfold roundHalfAway
  rcases le_or_lt 0 (n : ℚ) with h | h
  · rw [if_pos h]
    rw [Int.floor_int_add]
    norm_num
  · rw [if_neg (not_le.mpr h)]
    have : -(n : ℚ) + 1/2 = ((-n : ℤ) : ℚ) + 1/2 := by push_cast; ring
    rw [this, Int.floor_int_add]
    norm_num

theorem toFixed2_twoDec (x : ℚ) : TwoDec (toFixed2 x) :=
  ⟨roundHalfAway (100 * x), rfl⟩

theorem toFixed2_eq_self {x : ℚ} (h : TwoDec x) : toFixed2 x = x := by
  obtain ⟨n, rfl⟩ := h
  unfold toFixed2
  have h100 : (100 : ℚ) * ((n : ℚ) / 100) = (n : ℚ) := by ring
  rw [h100, roundHalfAway_intCast]

theorem TwoDec.add {x y : ℚ} (hx : TwoDec x) (hy : TwoDec y) : TwoDec (x + y) := by
  obtain ⟨n, rfl⟩ := hx
  obtain ⟨m, rfl⟩ := hy
  exact ⟨n + m, by push_cast; ring⟩

theorem TwoDec.sub {x y : ℚ} (hx : TwoDec x) (hy : TwoDec y) : TwoDec (x - y) := by
  obtain ⟨n, rfl⟩ := hx
  obtain ⟨m, rfl⟩ := hy
  exact ⟨n - m, by push_cast; ring⟩

theorem abs_sub_roundHalfAway_le (q : ℚ) : |q - (roundHalfAway q : ℚ)| ≤ 1/2 := by
  unfold roundHalfAway
  rcases le_or_lt 0 q with h | h
  · rw [if_pos h]
    have h1 : (⌊q + 1/2⌋ : ℚ) ≤ q + 1/2 := Int.floor_le _
    have h2 : q + 1/2 - 1 < (⌊q + 1/2⌋ : ℚ) := Int.sub_one_lt_floor _
    rw [abs_le]
    constructor <;> linarith
  · rw [if_neg (not_le.mpr h)]
    have h1 : (⌊-q + 1/2⌋ : ℚ) ≤ -q + 1/2 := Int.floor_le _
    have h2 : -q + 1/2 - 1 < (⌊-q + 1/2⌋ : ℚ) := Int.sub_one_lt_floor _
    rw [abs_le]
    push_cast
    constructor <;> linarith

theorem roundHalfAway_tie_away {q : ℚ} (h : |q - (roundHalfAway q : ℚ)| = 1/2) :
    |(roundHalfAway q : ℚ)| = |q| + 1/2 := by
  unfold roundHalfAway at *
  rcases le_or_lt 0 q with h0 | h0
  · rw [if_pos h0] at h ⊢
    have h2 : q + 1/2 - 1 < (⌊q + 1/2⌋ : ℚ) := Int.sub_one_lt_floor _
    have habs : q - (⌊q + 1/2⌋ : ℚ) = 1/2 ∨ q - (⌊q + 1/2⌋ : ℚ) = -(1/2) := abs_eq (by norm_num) |>.mp h
    rcases habs with he | he
    · exfalso; linarith
    · have hq : (⌊q + 1/2⌋ : ℚ) = q + 1/2 := by linarith
      rw [hq, abs_of_nonneg h0, abs_of_nonneg (by linarith)]
  · rw [if_neg (not_le.mpr h0)] at h ⊢
    have h2 : -q + 1/2 - 1 < (⌊-q + 1/2⌋ : ℚ) := Int.sub_one_lt_floor _
    have hcast : ((-⌊-q + 1/2⌋ : ℤ) : ℚ) = -(⌊-q + 1/2⌋ : ℚ) := by push_cast; ring
    rw [hcast] at h ⊢
    have habs : q - -(⌊-q + 1/2⌋ : ℚ) = 1/2 ∨ q - -(⌊-q + 1/2⌋ : ℚ) = -(1/2) :=
      abs_eq (by norm_num) |>.mp h
    rcases habs with he | he
    · have hq : (⌊-q + 1/2⌋ : ℚ) = -q + 1/2 := by linarith
      rw [hq, abs_of_neg h0, abs_of_neg (show -(-q + 1/2) < 0 by linarith)]
      ring
    · exfalso
      linarith

theorem abs_sub_toFixed2_le (x : ℚ) : |x - toFixed2 x| ≤ 1/200 := by
  have h := abs_sub_roundHalfAway_le (100 * x)
  unfold toFixed2
  have hx : x - (roundHalfAway (100 * x) : ℚ) / 100 =
      (100 * x - (roundHalfAway (100 * x) : ℚ)) / 100 := by ring
  rw [hx, abs_div, abs_of_pos (by norm_num : (0:ℚ) < 100)]
  linarith [h]

theorem toFixed2_tie_away {x : ℚ} (h : |x - toFixed2 x| = 1/200) :
    |toFixed2 x| = |x| + 1/200 := by
  unfold toFixed2 at *
  have hx : x - (roundHalfAway (100 * x) : ℚ) / 100 =
      (100 * x - (roundHalfAway (100 * x) : ℚ)) / 100 := by ring
  rw [hx, abs_div, abs_of_pos (by norm_num : (0:ℚ) < 100)] at h
  have h2 : |100 * x - (roundHalfAway (100 * x) : ℚ)| = 1/2 := by linarith
  have h3 := roundHalfAway_tie_away h2
  rw [abs_div, abs_of_pos (by norm_num : (0:ℚ) < 100), h3]
  have : |100 * x| = 100 * |x| := by
    rw [abs_mul, abs_of_pos (by norm_num : (0:ℚ) < 100)]
  rw [this]
  ring

/-- `TransactionType` enum from src/models/Transaction.ts. -/
inductive TransactionType where
  | deposit
  | transfer
  | withdrawal
  deriving DecidableEq, Repr

/-- `TransactionStatus` enum from src/models/Transaction.ts. -/
inductive TransactionStatus where
  | pending
  | success
  | failed
  | reversed
  deriving DecidableEq, Repr

/-- A row of the `wallets` table (src/models/Wallet.ts). -/
structure Wallet where
  id : String
  userId : String
  balance : ℚ
  walletNumber : String
  deriving DecidableEq, Repr

/-- A row of the `transactions` table (src/models/Transaction.ts).  Row ids
are modelled as naturals drawn from the database id counter. -/
structure Transaction where
  id : Nat
  userId : String
  type : TransactionType
  amount : ℚ
  status : TransactionStatus
  reference : Option String
  recipientWalletNumber : Option String
  senderWalletNumber : Option String
  metadata : Option String
  description : Option String
  deriving DecidableEq, Repr

/-- The shared durable store: wallet rows, transaction rows, and the id
counter used for freshly created transaction rows. -/
structure DB where
  wallets : List Wallet
  transactions : List Transaction
  nextId : Nat
  deriving DecidableEq, Repr

/-- Replace every row whose key matches the key of `a` by `a`; the
embedding of a Sequelize row update (`save`) keyed on the primary key. -/
def replaceBy {α β : Type} [DecidableEq β] (key : α → β) (l : List α) (a : α) : List α :=
  l.map (fun x => if key x = key a then a else x)

theorem map_key_replaceBy {α β : Type} [DecidableEq β] (key : α → β) (l : List α) (a : α) :
    (replaceBy key l a).map key = l.map key := by
  induction l with
  | nil => rfl
  | cons h t ih =>
    simp only [replaceBy, List.map_cons] at ih ⊢
    by_cases hk : key h = key a
    · rw [if_pos hk, ih, hk]
    · rw [if_neg hk, ih]

theorem replaceBy_eq_self {α β : Type} [DecidableEq β] (key : α → β) (l : List α) (a : α)
    (h : ∀ y ∈ l, key y ≠ key a) : replaceBy key l a = l := by
  induction l with
  | nil => rfl
  | cons x t ih =>
    simp only [replaceBy, List.map_cons]
    rw [if_neg (h x (List.mem_cons_self x t))]
    rw [show (List.map (fun x => if key x = key a then a else x) t) = replaceBy key t a from rfl]
    rw [ih (fun y hy => h y (List.mem_cons_of_mem x hy))]

/-- After replacing the found row by a row with the same key that still
satisfies the search predicate, the search finds the replacement. -/
theorem find?_replaceBy {α β : Type} [DecidableEq β] (key : α → β) (p : α → Bool)
    (l : List α) (a x : α) (hf : l.find? p = some x) (hk : key x = key a)
    (hp : p a = true) : (replaceBy key l a).find? p = some a := by
  induction l with
  | nil => simp at hf
  | cons h t ih =>
    by_cases hph : p h = true
    · rw [List.find?_cons_of_pos _ hph] at hf
      have hxh : x = h := by injection hf with h1; exact h1.symm
      subst hxh
      simp only [replaceBy, List.map_cons, if_pos hk]
      exact List.find?_cons_of_pos _ hp
    · have hf' : t.find? p = some x := by
        rwa [List.find?_cons_of_neg _ (by simp [hph])] at hf
      by_cases hk2 : key h = key a
      · simp only [replaceBy, List.map_cons, if_pos hk2]
        exact List.find?_cons_of_pos _ hp
      · simp only [replaceBy, List.map_cons, if_neg hk2]
        rw [List.find?_cons_of_neg _ (by simp [hph])]
        exact ih hf'

/-- Replacing a row keyed differently from the searched key leaves the
search result unchanged. -/
theorem find?_replaceBy_ne {α β : Type} [DecidableEq β] (key : α → β)
    (l : List α) (a : α) (j : β) (hja : j ≠ key a) :
    (replaceBy key l a).find? (fun y => decide (key y = j)) =
      l.find? (fun y => decide (key y = j)) := by
  induction l with
  | nil => rfl
  | cons h t ih =>
    by_cases hk : key h = key a
    · have hh : decide (key h = j) = false := by
        simp only [decide_eq_false_iff_not]
        rw [hk]; exact fun he => hja he.symm
      have ha : decide (key a = j) = false := by
        simp only [decide_eq_false_iff_not]
        exact fun he => hja he.symm
      simp only [replaceBy, List.map_cons, if_pos hk]
      rw [List.find?_cons_of_neg _ (by simp [ha]), List.find?_cons_of_neg _ (by simp [hh])]
      exact ih
    · simp only [replaceBy, List.map_cons, if_neg hk]
      by_cases hj : key h = j
      · rw [List.find?_cons_of_pos _ (by simp [hj]), List.find?_cons_of_pos _ (by simp [hj])]
      · rw [List.find?_cons_of_neg _ (by simp [hj]), List.find?_cons_of_neg _ (by simp [hj])]
        exact ih

/-- In a list whose keys are distinct, searching for the key of a member
finds that member. -/
theorem find?_key_of_mem_nodup {α β : Type} [DecidableEq β] (key : α → β)
    (l : List α) (x : α) (hN : (l.map key).Nodup) (hx : x ∈ l) :
    l.find? (fun y => decide (key y = key x)) = some x := by
  induction l with
  | nil => simp at hx
  | cons h t ih =>
    rcases List.mem_cons.mp hx with rfl | hxt
    · exact List.find?_cons_of_pos _ (by simp)
    · have hne : key h ≠ key x := by
        intro he
        have : key x ∈ t.map key := List.mem_map_of_mem key hxt
        rw [← he] at this
        exact (List.nodup_cons.mp (by simpa using hN)).1 this
      rw [List.find?_cons_of_neg _ (by simp [hne])]
      exact ih (List.nodup_cons.mp (by simpa using hN)).2 hxt

/-- Total balance held across a list of wallet rows. -/
def sumBal (l : List Wallet) : ℚ := (l.map Wallet.balance).sum

theorem sumBal_replaceBy (l : List Wallet) (a x : Wallet)
    (hN : (l.map Wallet.id).Nodup)
    (hf : l.find? (fun y => decide (y.id = a.id)) = some x) :
    sumBal (replaceBy Wallet.id l a) = sumBal l - x.balance + a.balance := by
  induction l with
  | nil => simp at hf
  | cons h t ih =>
    have hN0 : (h.id :: t.map Wallet.id).Nodup := by simpa using hN
    have hN' := List.nodup_cons.mp hN0
    by_cases hk : h.id = a.id
    · rw [List.find?_cons_of_pos _ (by simp [hk])] at hf
      have hxh : x = h := by injection hf with h1; exact h1.symm
      subst hxh
      have ht : replaceBy Wallet.id t a = t := by
        apply replaceBy_eq_self
        intro y hy he
        apply hN'.1
        have hmem : y.id ∈ t.map Wallet.id := List.mem_map_of_mem _ hy
        rwa [he, ← hk] at hmem
      simp only [replaceBy, List.map_cons, if_pos hk]
      rw [show (List.map (fun y => if y.id = a.id then a else y) t) =
        replaceBy Wallet.id t a from rfl, ht]
      simp only [sumBal, List.map_cons, List.sum_cons]
      ring
    · rw [List.find?_cons_of_neg _ (by simp [hk])] at hf
      simp only [replaceBy, List.map_cons, if_neg hk]
      rw [show (List.map (fun y => if y.id = a.id then a else y) t) =
        replaceBy Wallet.id t a from rfl]
      simp only [sumBal, List.map_cons, List.sum_cons]
      have := ih hN'.2 hf
      simp only [sumBal] at this
      rw [this]
      ring

/-- `Wallet.findOne` keyed on `userId` (walletService.getWalletByUserId,
and the locked sender read of transferFunds). -/
def findWalletByUserId (db : DB) (uid : String) : Option Wallet :=
  db.wallets.find? (fun w => decide (w.userId = uid))

/-- `Wallet.findOne` keyed on `walletNumber` (the locked recipient read). -/
def findWalletByNumber (db : DB) (n : String) : Option Wallet :=
  db.wallets.find? (fun w => decide (w.walletNumber = n))

/-- Row lookup by primary key, used to state postconditions. -/
def findWalletById (db : DB) (i : String) : Option Wallet :=
  db.wallets.find? (fun w => decide (w.id = i))

/-- `Transaction.findOne` keyed on `reference`. -/
def findTxnByReference (db : DB) (r : String) : Option Transaction :=
  db.transactions.find? (fun t => decide (t.reference = some r))

/-- Row lookup by primary key, used to state postconditions. -/
def findTxnById (db : DB) (i : Nat) : Option Transaction :=
  db.transactions.find? (fun t => decide (t.id = i))

/-- `Transaction.findOne` keyed on `reference` and withdrawal type, as used
by the transfer.failed / transfer.reversed webhook handlers. -/
def findWithdrawalByReference (db : DB) (r : String) : Option Transaction :=
  db.transactions.find?
    (fun t => decide (t.reference = some r ∧ t.type = TransactionType.withdrawal))

/-- Persisting a mutated wallet row (`wallet.save()`). -/
def saveWallet (db : DB) (w : Wallet) : DB :=
  { db with wallets := replaceBy Wallet.id db.wallets w }

/-- Persisting a mutated transaction row (`transaction.save()`). -/
def saveTxn (db : DB) (t : Transaction) : DB :=
  { db with transactions := replaceBy Transaction.id db.transactions t }

/-- `Transaction.create`: a fresh row takes the next id and is appended. -/
def createTxn (db : DB) (mk : Nat → Transaction) : Transaction × DB :=
  let t := mk db.nextId
  (t, { db with transactions := db.transactions ++ [t], nextId := db.nextId + 1 })

/-- `Transaction.updateStatus` (src/models/Transaction.ts): sets the
requested status unconditionally and stores the metadata blob. -/
def Transaction.updateStatus (t : Transaction) (s : TransactionStatus)
    (meta : Option String) : Transaction :=
  { t with status := s,
           metadata := match meta with | some m => some m | none => t.metadata }

/-- Stand-in for `JSON.stringify` on a rational in audit metadata. -/
def numStr (q : ℚ) : String := toString q.num ++ " div " ++ toString q.den

/-- Audit metadata of the sender-side transfer row. -/
def transferMetaSender (sb nsb rb nrb : ℚ) : String :=
  "senderBalanceBefore " ++ numStr sb ++ " senderBalanceAfter " ++ numStr nsb ++
  " recipientBalanceBefore " ++ numStr rb ++ " recipientBalanceAfter " ++ numStr nrb

/-- Audit metadata of the recipient-side transfer row. -/
def transferMetaRecipient (rb nrb : ℚ) : String :=
  "recipientBalanceBefore " ++ numStr rb ++ " recipientBalanceAfter " ++ numStr nrb

/-- The result value of `WalletService.transferFunds`. -/
structure TransferResult where
  success : Bool
  message : String
  transactionId : Option Nat
  deriving DecidableEq, Repr

/-- `WalletService.transferFunds` (src/services/walletService.ts:55-158).
The unit of work is embedded as explicit state passing: every failure path
rolls back, returning the caller's original state.  The third component is
the list of wallet ids on which `SELECT ... FOR UPDATE` row locks were
acquired, in acquisition order: the sender row is locked first, then the
recipient row. -/
def transferFunds (db : DB) (senderId recipientWalletNumber : String) (amount : ℚ)
    (description : Option String) : TransferResult × DB × List String :=
  match findWalletByUserId db senderId with
  | none => (⟨false, "Sender wallet not found", none⟩, db, [])
  | some senderWallet =>
    let senderBalance := senderWallet.balance
    if senderBalance < amount then
      (⟨false, "Insufficient balance", none⟩, db, [senderWallet.id])
    else
      match findWalletByNumber db recipientWalletNumber with
      | none => (⟨false, "Recipient wallet not found", none⟩, db, [senderWallet.id])
      | some recipientWallet =>
        if recipientWallet.userId = senderId then
          (⟨false, "Cannot transfer to yourself", none⟩, db,
           [senderWallet.id, recipientWallet.id])
        else
          let newSenderBalance := toFixed2 (senderBalance - amount)
          let db1 := saveWallet db { senderWallet with balance := newSenderBalance }
          let recipientBalance := recipientWallet.balance
          let newRecipientBalance := toFixed2 (recipientBalance + amount)
          let db2 := saveWallet db1 { recipientWallet with balance := newRecipientBalance }
          let st := createTxn db2 (fun i =>
            { id := i, userId := senderId, type := TransactionType.transfer,
              amount := amount, status := TransactionStatus.success,
              reference := none,
              recipientWalletNumber := some recipientWallet.walletNumber,
              senderWalletNumber := some senderWallet.walletNumber,
              metadata := some (transferMetaSender senderBalance newSenderBalance
                recipientBalance newRecipientBalance),
              description := some (description.getD
                ("Transfer to " ++ recipientWalletNumber)) })
          let rt := createTxn st.2 (fun i =>
            { id := i, userId := recipientWallet.userId, type := TransactionType.transfer,
              amount := amount, status := TransactionStatus.success,
              reference := none,
              recipientWalletNumber := some recipientWallet.walletNumber,
              senderWalletNumber := some senderWallet.walletNumber,
              metadata := some (transferMetaRecipient recipientBalance newRecipientBalance),
              description := some ("Transfer from " ++ senderWallet.walletNumber) })
          (⟨true, "Transfer completed successfully", some st.1.id⟩, rt.2,
           [senderWallet.id, recipientWallet.id])

/-- `WalletController.transferSchema` (src/controllers/walletController.ts:13-17):
wallet_number is a string of length exactly 13, amount is between 100 and
10000000 inclusive, description is at most 255 characters. -/
def transferSchemaValid (walletNumber : String) (amount : ℚ)
    (description : Option String) : Bool :=
  decide (walletNumber.length = 13) && decide (100 ≤ amount) &&
  decide (amount ≤ 10000000) &&
  (match description with
   | none => true
   | some d => decide (d.length ≤ 255))

/-- `WalletController.transfer`: Joi schema validation happens before the
service (and hence before any lock) is reached. -/
def controllerTransfer (db : DB) (senderId walletNumber : String) (amount : ℚ)
    (description : Option String) : TransferResult × DB × List String :=
  if transferSchemaValid walletNumber amount description then
    transferFunds db senderId walletNumber amount description
  else
    (⟨false, "Validation error", none⟩, db, [])

/-- The verified charge payload handed to the webhook handlers:
`data.reference`, `data.amount` (in kobo, minor units), `data.status`. -/
structure ChargeEvent where
  reference : String
  amount : ℚ
  status : String
  deriving DecidableEq, Repr

/-- Outcome of `PaystackService.processSuccessfulCharge`: normal
completion credits; an entry already in success returns early; the two
throw paths are surfaced as explicit outcomes. -/
inductive ChargeOutcome where
  | credited
  | alreadyProcessed
  | txnNotFound
  | walletNotFound
  deriving DecidableEq, Repr

/-- Audit metadata stored by `updateStatus` with the raw event. -/
def chargeMeta (e : ChargeEvent) : String :=
  "event reference " ++ e.reference ++ " amount " ++ numStr e.amount ++
  " status " ++ e.status

/-- Audit metadata stored after the wallet credit (wallet id and number,
kobo and naira amounts). -/
def creditMeta (e : ChargeEvent) (walletId walletNumber : String) : String :=
  chargeMeta e ++ " walletId " ++ walletId ++ " walletNumber " ++ walletNumber ++
  " depositAmountInNaira " ++ numStr (e.amount / 100)

/-- `PaystackService.processSuccessfulCharge`
(src/services/paystackService.ts:257-331).  Looks up the ledger entry by
reference; returns early if it is already `success`; otherwise marks it
`success`, then credits the owning wallet by the verified amount converted
from kobo to naira (divided by 100), rounding the new balance to two
decimals, and records audit metadata on the entry. -/
def processSuccessfulCharge (db : DB) (e : ChargeEvent) : ChargeOutcome × DB :=
  match findTxnByReference db e.reference with
  | none => (ChargeOutcome.txnNotFound, db)
  | some txn =>
    if txn.status = TransactionStatus.success then
      (ChargeOutcome.alreadyProcessed, db)
    else
      let txn1 := txn.updateStatus TransactionStatus.success (some (chargeMeta e))
      let db1 := saveTxn db txn1
      match findWalletByUserId db1 txn.userId with
      | none => (ChargeOutcome.walletNotFound, db1)
      | some wallet =>
        let depositAmountInNaira := e.amount / 100
        let newBalance := wallet.balance + depositAmountInNaira
        let wallet1 := { wallet with balance := toFixed2 newBalance }
        let db2 := saveWallet db1 wallet1
        let txn2 := { txn1 with
          metadata := some (creditMeta e wallet.id wallet.walletNumber) }
        let db3 := saveTxn db2 txn2
        (ChargeOutcome.credited, db3)

/-- `PaystackService.processFailedCharge`
(src/services/paystackService.ts:333-346): if an entry with the reference
exists, set it to `failed` unconditionally — no status guard. -/
def processFailedCharge (db : DB) (e : ChargeEvent) : DB :=
  match findTxnByReference db e.reference with
  | none => db
  | some txn =>
    saveTxn db (txn.updateStatus TransactionStatus.failed (some (chargeMeta e)))

/-- `PaystackService.processTransferReversed`
(src/services/paystackService.ts:405-440): if a withdrawal entry with the
reference exists, set it to `reversed` unconditionally and re-credit the
owning wallet by the entry amount. -/
def processTransferReversed (db : DB) (e : ChargeEvent) : DB :=
  match findWithdrawalByReference db e.reference with
  | none => db
  | some txn =>
    let db1 := saveTxn db (txn.updateStatus TransactionStatus.reversed (some (chargeMeta e)))
    match findWalletByUserId db1 txn.userId with
    | none => db1
    | some wallet =>
      saveWallet db1 { wallet with balance := toFixed2 (wallet.balance + txn.amount) }

/-- Applying `processSuccessfulCharge` for the same event `n` times in
sequence, threading the store state. -/
def reconcileIter (e : ChargeEvent) : Nat → DB → DB
  | 0, db => db
  | n + 1, db => reconcileIter e n (processSuccessfulCharge db e).2

/-- `WalletService.getWalletBalance` (src/services/walletService.ts:7-10):
returns the wallet balance, or 0 when the user has no wallet row. -/
def getWalletBalance (db : DB) (userId : String) : ℚ :=
  match findWalletByUserId db userId with
  | some wallet => wallet.balance
  | none => 0

/-- The JSON body of `WalletController.getBalance`. -/
structure BalanceResponse where
  success : Bool
  balance : ℚ
  deriving DecidableEq, Repr

/-- `WalletController.getBalance`
(src/controllers/walletController.ts:189-204): always a success response
carrying `getWalletBalance`. -/
def getBalance (db : DB) (userId : String) : BalanceResponse :=
  ⟨true, getWalletBalance db userId⟩

/-- `generateWalletNumber` (src/utils, also repeated in the database
bootstrap): `Math.floor(1000000000000 + Math.random() * 9000000000000)`,
embedded over the random draw `r` from the unit interval. -/
def generateWalletNumber (r : ℚ) : ℕ :=
  (⌊1000000000000 + r * 9000000000000⌋).toNat

/-- `Wallet.create` under the unique constraint on `wallet_number`
(src/models/Wallet.ts:42-48): inserting a duplicate wallet number is
rejected by the store. -/
def walletCreate (db : DB) (w : Wallet) : Except String DB :=
  if db.wallets.any (fun x => decide (x.walletNumber = w.walletNumber)) then
    Except.error "walletNumber must be unique"
  else
    Except.ok { db with wallets := db.wallets ++ [w] }

/-- Wallet creation in the new-user onboarding branch of the Google OAuth
callback: a single `generateWalletNumber()` draw, then `Wallet.create`
with balance 0 — no uniqueness check of the drawn number, no retry. -/
def createWalletForNewUser (db : DB) (userId : String) (r : ℚ) : Except String DB :=
  walletCreate db
    { id := userId ++ " wallet", userId := userId, balance := 0,
      walletNumber := toString (generateWalletNumber r) }

/-- `WalletService.debitWallet` (src/services/walletService.ts:215-240). -/
def debitWallet (db : DB) (userId : String) (amount : ℚ) (description : String) :
    Except String DB :=
  match findWalletByUserId db userId with
  | none => Except.error "Wallet not found"
  | some wallet =>
    if wallet.balance < amount then Except.error "Insufficient balance"
    else
      let wallet1 := { wallet with balance := toFixed2 (wallet.balance - amount) }
      let db1 := saveWallet db wallet1
      Except.ok (createTxn db1 (fun i =>
        { id := i, userId := userId, type := TransactionType.withdrawal,
          amount := amount, status := TransactionStatus.success,
          reference := none, recipientWalletNumber := none,
          senderWalletNumber := none,
          metadata := some ("balanceBefore " ++ numStr wallet.balance ++
            " balanceAfter " ++ numStr wallet1.balance),
          description := some description })).2

/-- `WalletService.creditWallet` (src/services/walletService.ts:242-263). -/
def creditWallet (db : DB) (userId : String) (amount : ℚ) (description : String) :
    Except String DB :=
  match findWalletByUserId db userId with
  | none => Except.error "Wallet not found"
  | some wallet =>
    let wallet1 := { wallet with balance := toFixed2 (wallet.balance + amount) }
    let db1 := saveWallet db wallet1
    Except.ok (createTxn db1 (fun i =>
      { id := i, userId := userId, type := TransactionType.deposit,
        amount := amount, status := TransactionStatus.success,
        reference := none, recipientWalletNumber := none,
        senderWalletNumber := none,
        metadata := some ("balanceBefore " ++ numStr wallet.balance ++
          " balanceAfter " ++ numStr wallet1.balance),
        description := some description })).2

/-- `Wallet.debit` (src/models/Wallet.ts:61-69). -/
def Wallet.debit (w : Wallet) (amount : ℚ) : Except String Wallet :=
  if w.balance < amount then Except.error "Insufficient balance"
  else Except.ok { w with balance := toFixed2 (w.balance - amount) }

/-- `Wallet.credit` (src/models/Wallet.ts:72-76). -/
def Wallet.credit (w : Wallet) (amount : ℚ) : Wallet :=
  { w with balance := toFixed2 (w.balance + amount) }

/-- Replacing a wallet row that shares the id of a present row makes the
id lookup return the replacement. -/
theorem find?_id_replaceBy_self (l : List Wallet) (w w1 : Wallet)
    (hmem : w ∈ l) (hid : w1.id = w.id) :
    (replaceBy Wallet.id l w1).find? (fun y => decide (y.id = w.id)) = some w1 := by
  have hex : (l.find? (fun y => decide (y.id = w.id))).isSome :=
    List.find?_isSome.mpr ⟨w, hmem, by simp⟩
  obtain ⟨x, hx⟩ := Option.isSome_iff_exists.mp hex
  have hxid : x.id = w.id := by
    have h2 := List.find?_some hx
    simpa using h2
  exact find?_replaceBy Wallet.id _ l w1 x hx (by rw [hxid, hid]) (by simp [hid])

/-- Computation of the success path of `processSuccessfulCharge`: the
entry exists, is not yet `success`, and the owning wallet exists. -/
theorem processSuccessfulCharge_eq (db : DB) (e : ChargeEvent)
    (txn : Transaction) (w : Wallet)
    (ht : findTxnByReference db e.reference = some txn)
    (hs : txn.status ≠ TransactionStatus.success)
    (hw : findWalletByUserId db txn.userId = some w) :
    processSuccessfulCharge db e =
      (ChargeOutcome.credited,
       saveTxn
         (saveWallet
           (saveTxn db (txn.updateStatus TransactionStatus.success (some (chargeMeta e))))
           { w with balance := toFixed2 (w.balance + e.amount / 100) })
         { txn.updateStatus TransactionStatus.success (some (chargeMeta e)) with
           metadata := some (creditMeta e w.id w.walletNumber) }) := by
  have hw1 : findWalletByUserId
      (saveTxn db (txn.updateStatus TransactionStatus.success (some (chargeMeta e))))
      txn.userId = some w := hw
  simp only [processSuccessfulCharge, ht, if_neg hs, hw1]

/-- Computation of the idempotency guard of `processSuccessfulCharge`:
an entry already in `success` is returned untouched. -/
theorem processSuccessfulCharge_already (db : DB) (e : ChargeEvent) (txn : Transaction)
    (ht : findTxnByReference db e.reference = some txn)
    (hs : txn.status = TransactionStatus.success) :
    processSuccessfulCharge db e = (ChargeOutcome.alreadyProcessed, db) := by
  simp only [processSuccessfulCharge, ht, if_pos hs]

/-- C1: for a ledger entry carrying reference `r` that is not yet
`success` and whose owning wallet exists, the first reconciliation of a
verified success event credits the wallet by the verified amount exactly
once and moves the entry to `success`; every later reconciliation of the
same reference is an `AlreadyProcessed` no-op, so any number N ≥ 1 of
invocations yields the same state as a single one. -/
theorem reconcile_idempotent
    (db : DB) (r : String) (v : ℚ) (txn : Transaction) (w : Wallet)
    (ht : findTxnByReference db r = some txn)
    (hs : txn.status ≠ TransactionStatus.success)
    (hw : findWalletByUserId db txn.userId = some w) :
    (processSuccessfulCharge db ⟨r, v, "success"⟩).1 = ChargeOutcome.credited ∧
    findWalletById (processSuccessfulCharge db ⟨r, v, "success"⟩).2 w.id =
      some { w with balance := toFixed2 (w.balance + v / 100) } ∧
    (∃ t, findTxnByReference (processSuccessfulCharge db ⟨r, v, "success"⟩).2 r = some t ∧
      t.status = TransactionStatus.success) ∧
    processSuccessfulCharge (processSuccessfulCharge db ⟨r, v, "success"⟩).2
        ⟨r, v, "success"⟩ =
      (ChargeOutcome.alreadyProcessed, (processSuccessfulCharge db ⟨r, v, "success"⟩).2) ∧
    (∀ n : Nat, reconcileIter ⟨r, v, "success"⟩ (n + 1) db =
      (processSuccessfulCharge db ⟨r, v, "success"⟩).2) := by
  have href : txn.reference = some r := by
    have h2 := List.find?_some ht
    simpa using h2
  have hstep := processSuccessfulCharge_eq db ⟨r, v, "success"⟩ txn w ht hs hw
  have hmem : w ∈ db.wallets := List.mem_of_find?_eq_some hw
  -- the entry after the two row updates of the success path
  have hfind3 : findTxnByReference (processSuccessfulCharge db ⟨r, v, "success"⟩).2 r =
      some { txn.updateStatus TransactionStatus.success (some (chargeMeta ⟨r, v, "success"⟩)) with
             metadata := some (creditMeta ⟨r, v, "success"⟩ w.id w.walletNumber) } := by
    rw [hstep]
    show (replaceBy Transaction.id
        (replaceBy Transaction.id db.transactions _) _).find? _ = _
    apply find?_replaceBy Transaction.id _ _ _
      (txn.updateStatus TransactionStatus.success (some (chargeMeta ⟨r, v, "success"⟩)))
    · exact find?_replaceBy Transaction.id _ _ _ txn ht rfl
        (by simp [Transaction.updateStatus, href])
    · rfl
    · simp [Transaction.updateStatus, href]
  have hfix : processSuccessfulCharge (processSuccessfulCharge db ⟨r, v, "success"⟩).2
      ⟨r, v, "success"⟩ =
      (ChargeOutcome.alreadyProcessed, (processSuccessfulCharge db ⟨r, v, "success"⟩).2) :=
    processSuccessfulCharge_already _ _ _ hfind3 rfl
  refine ⟨by rw [hstep], ?_, ⟨_, hfind3, rfl⟩, hfix, ?_⟩
  · rw [hstep]
    exact find?_id_replaceBy_self db.wallets w _ hmem rfl
  · have hIter : ∀ n, reconcileIter ⟨r, v, "success"⟩ n
        (processSuccessfulCharge db ⟨r, v, "success"⟩).2 =
        (processSuccessfulCharge db ⟨r, v, "success"⟩).2 := by
      intro n
      induction n with
      | zero => rfl
      | succ k ih =>
        show reconcileIter ⟨r, v, "success"⟩ k
          (processSuccessfulCharge (processSuccessfulCharge db ⟨r, v, "success"⟩).2
            ⟨r, v, "success"⟩).2 = _
        rw [hfix]
        exact ih
    intro n
    show reconcileIter ⟨r, v, "success"⟩ n (processSuccessfulCharge db ⟨r, v, "success"⟩).2 = _
    exact hIter n

/-- C1 witness: the spec scenario — a pending deposit of 5000 with
reference ref_1; two reconciliations of the verified success event apply
exactly one credit of 5000 naira (500000 kobo) and leave the entry in
success, the second call answering AlreadyProcessed. -/
theorem reconcile_idempotent_witness :
    (processSuccessfulCharge
        ⟨[⟨"w1", "u1", 0, "1234567890123"⟩],
         [⟨0, "u1", TransactionType.deposit, 5000, TransactionStatus.pending,
           some "ref_1", none, none, none, none⟩], 1⟩
        ⟨"ref_1", 500000, "success"⟩).1 = ChargeOutcome.credited ∧
    findWalletById (processSuccessfulCharge
        ⟨[⟨"w1", "u1", 0, "1234567890123"⟩],
         [⟨0, "u1", TransactionType.deposit, 5000, TransactionStatus.pending,
           some "ref_1", none, none, none, none⟩], 1⟩
        ⟨"ref_1", 500000, "success"⟩).2 "w1" =
      some ⟨"w1", "u1", 5000, "1234567890123"⟩ ∧
    (∀ n : Nat, reconcileIter ⟨"ref_1", 500000, "success"⟩ (n + 1)
        ⟨[⟨"w1", "u1", 0, "1234567890123"⟩],
         [⟨0, "u1", TransactionType.deposit, 5000, TransactionStatus.pending,
           some "ref_1", none, none, none, none⟩], 1⟩ =
      (processSuccessfulCharge
        ⟨[⟨"w1", "u1", 0, "1234567890123"⟩],
         [⟨0, "u1", TransactionType.deposit, 5000, TransactionStatus.pending,
           some "ref_1", none, none, none, none⟩], 1⟩
        ⟨"ref_1", 500000, "success"⟩).2) := by
  have h := reconcile_idempotent
    ⟨[⟨"w1", "u1", 0, "1234567890123"⟩],
     [⟨0, "u1", TransactionType.deposit, 5000, TransactionStatus.pending,
       some "ref_1", none, none, none, none⟩], 1⟩
    "ref_1" 500000
    ⟨0, "u1", TransactionType.deposit, 5000, TransactionStatus.pending,
      some "ref_1", none, none, none, none⟩
    ⟨"w1", "u1", 0, "1234567890123"⟩
    (by decide) (by decide) (by decide)
  refine ⟨h.1, ?_, h.2.2.2.2⟩
  have h2 := h.2.1
  have : toFixed2 ((0 : ℚ) + 500000 / 100) = 5000 := by with_unfolding_all rfl
  rw [this] at h2
  exact h2

/-- C3: a successful transfer of a two-decimal amount decreases the
sender balance by exactly the amount, increases the recipient balance by
exactly the amount, keeps the total balance across all wallet rows
unchanged, and appends exactly two new transfer/success ledger rows — one
scoped to each owner — both recording the same sender and recipient
wallet numbers. -/
theorem transfer_success_postcondition
    (db : DB) (senderId recipientWalletNumber : String) (amount : ℚ)
    (description : Option String) (sw rw : Wallet)
    (hs : findWalletByUserId db senderId = some sw)
    (hb : ¬ sw.balance < amount)
    (hr : findWalletByNumber db recipientWalletNumber = some rw)
    (hself : ¬ rw.userId = senderId)
    (hN : (db.wallets.map Wallet.id).Nodup)
    (ha : TwoDec amount) (hsb : TwoDec sw.balance) (hrb : TwoDec rw.balance) :
    (transferFunds db senderId recipientWalletNumber amount description).1 =
      ⟨true, "Transfer completed successfully", some db.nextId⟩ ∧
    findWalletById
      (transferFunds db senderId recipientWalletNumber amount description).2.1 sw.id =
      some { sw with balance := sw.balance - amount } ∧
    findWalletById
      (transferFunds db senderId recipientWalletNumber amount description).2.1 rw.id =
      some { rw with balance := rw.balance + amount } ∧
    sumBal (transferFunds db senderId recipientWalletNumber amount description).2.1.wallets =
      sumBal db.wallets ∧
    (transferFunds db senderId recipientWalletNumber amount description).2.1.transactions =
      db.transactions ++
      [{ id := db.nextId, userId := senderId, type := TransactionType.transfer,
         amount := amount, status := TransactionStatus.success, reference := none,
         recipientWalletNumber := some rw.walletNumber,
         senderWalletNumber := some sw.walletNumber,
         metadata := some (transferMetaSender sw.balance (sw.balance - amount)
           rw.balance (rw.balance + amount)),
         description := some (description.getD ("Transfer to " ++ recipientWalletNumber)) },
       { id := db.nextId + 1, userId := rw.userId, type := TransactionType.transfer,
         amount := amount, status := TransactionStatus.success, reference := none,
         recipientWalletNumber := some rw.walletNumber,
         senderWalletNumber := some sw.walletNumber,
         metadata := some (transferMetaRecipient rw.balance (rw.balance + amount)),
         description := some ("Transfer from " ++ sw.walletNumber) }] := by
  have hswid : sw.userId = senderId := by
    have h2 := List.find?_some hs
    simpa using h2
  have hswmem : sw ∈ db.wallets := List.mem_of_find?_eq_some hs
  have hrwmem : rw ∈ db.wallets := List.mem_of_find?_eq_some hr
  have hne : sw ≠ rw := by
    intro he
    exact hself (by rw [← he]; exact hswid)
  have hid_ne : sw.id ≠ rw.id := by
    intro he
    have h1 := find?_key_of_mem_nodup Wallet.id db.wallets sw hN hswmem
    have h2 := find?_key_of_mem_nodup Wallet.id db.wallets rw hN hrwmem
    rw [show Wallet.id sw = Wallet.id rw from he] at h1
    rw [h1] at h2
    exact hne (by injection h2)
  have e1 : toFixed2 (sw.balance - amount) = sw.balance - amount :=
    toFixed2_eq_self (hsb.sub ha)
  have e2 : toFixed2 (rw.balance + amount) = rw.balance + amount :=
    toFixed2_eq_self (hrb.add ha)
  -- the two updated wallet rows
  have hsfind : findWalletById
      (transferFunds db senderId recipientWalletNumber amount description).2.1 sw.id =
      some { sw with balance := toFixed2 (sw.balance - amount) } := by
    simp only [transferFunds, hs, hr, if_neg hb, if_neg hself]
    show (replaceBy Wallet.id (replaceBy Wallet.id db.wallets _) _).find? _ = _
    rw [find?_replaceBy_ne Wallet.id _
      { rw with balance := toFixed2 (rw.balance + amount) } sw.id hid_ne]
    exact find?_id_replaceBy_self db.wallets sw _ hswmem rfl
  have hinner : (replaceBy Wallet.id db.wallets
      { sw with balance := toFixed2 (sw.balance - amount) }).find?
      (fun y => decide (y.id = rw.id)) = some rw := by
    rw [find?_replaceBy_ne Wallet.id _
      { sw with balance := toFixed2 (sw.balance - amount) } rw.id (fun he => hid_ne he.symm)]
    exact find?_key_of_mem_nodup Wallet.id db.wallets rw hN hrwmem
  have hrfind : findWalletById
      (transferFunds db senderId recipientWalletNumber amount description).2.1 rw.id =
      some { rw with balance := toFixed2 (rw.balance + amount) } := by
    simp only [transferFunds, hs, hr, if_neg hb, if_neg hself]
    show (replaceBy Wallet.id (replaceBy Wallet.id db.wallets _) _).find? _ = _
    exact find?_replaceBy Wallet.id _ _ _ rw hinner rfl (by simp)
  have hsum : sumBal
      (transferFunds db senderId recipientWalletNumber amount description).2.1.wallets =
      sumBal db.wallets := by
    simp only [transferFunds, hs, hr, if_neg hb, if_neg hself]
    show sumBal (replaceBy Wallet.id (replaceBy Wallet.id db.wallets _) _) = _
    rw [sumBal_replaceBy _ { rw with balance := toFixed2 (rw.balance + amount) } rw
      (by rw [map_key_replaceBy]; exact hN) hinner]
    rw [sumBal_replaceBy db.wallets { sw with balance := toFixed2 (sw.balance - amount) } sw
      hN (find?_key_of_mem_nodup Wallet.id db.wallets sw hN hswmem)]
    show sumBal db.wallets - sw.balance + toFixed2 (sw.balance - amount) - rw.balance +
      toFixed2 (rw.balance + amount) = sumBal db.wallets
    rw [e1, e2]
    ring
  have hres : (transferFunds db senderId recipientWalletNumber amount description).1 =
      ⟨true, "Transfer completed successfully", some db.nextId⟩ := by
    simp only [transferFunds, hs, hr, if_neg hb, if_neg hself, createTxn, saveWallet]
  refine ⟨hres, ?_, ?_, hsum, ?_⟩
  · rw [hsfind, e1]
  · rw [hrfind, e2]
  · simp only [transferFunds, hs, hr, if_neg hb, if_neg hself]
    show (db.transactions ++ [_]) ++ [_] = _
    rw [List.append_assoc, e1, e2]
    rfl

/-- C3 witness: the spec scenario — balances 10000 and 5000, transfer of
3000 succeeds, resulting balances 7000 and 8000, total unchanged. -/
theorem transfer_success_postcondition_witness :
    (transferFunds ⟨[⟨"wa", "ua", 10000, "1111111111111"⟩,
        ⟨"wb", "ub", 5000, "2222222222222"⟩], [], 0⟩
        "ua" "2222222222222" 3000 none).1 =
      ⟨true, "Transfer completed successfully", some 0⟩ ∧
    findWalletById (transferFunds ⟨[⟨"wa", "ua", 10000, "1111111111111"⟩,
        ⟨"wb", "ub", 5000, "2222222222222"⟩], [], 0⟩
        "ua" "2222222222222" 3000 none).2.1 "wa" =
      some ⟨"wa", "ua", 7000, "1111111111111"⟩ ∧
    findWalletById (transferFunds ⟨[⟨"wa", "ua", 10000, "1111111111111"⟩,
        ⟨"wb", "ub", 5000, "2222222222222"⟩], [], 0⟩
        "ua" "2222222222222" 3000 none).2.1 "wb" =
      some ⟨"wb", "ub", 8000, "2222222222222"⟩ ∧
    sumBal (transferFunds ⟨[⟨"wa", "ua", 10000, "1111111111111"⟩,
        ⟨"wb", "ub", 5000, "2222222222222"⟩], [], 0⟩
        "ua" "2222222222222" 3000 none).2.1.wallets =
      sumBal [⟨"wa", "ua", 10000, "1111111111111"⟩, ⟨"wb", "ub", 5000, "2222222222222"⟩] := by
  have h := transfer_success_postcondition
    ⟨[⟨"wa", "ua", 10000, "1111111111111"⟩, ⟨"wb", "ub", 5000, "2222222222222"⟩], [], 0⟩
    "ua" "2222222222222" 3000 none
    ⟨"wa", "ua", 10000, "1111111111111"⟩ ⟨"wb", "ub", 5000, "2222222222222"⟩
    (by decide) (by decide) (by decide) (by decide) (by decide)
    ⟨300000, by norm_num⟩ ⟨1000000, by norm_num⟩ ⟨500000, by norm_num⟩
  obtain ⟨h1, h2, h3, h4, _⟩ := h
  have ea : (10000 : ℚ) - 3000 = 7000 := by norm_num
  have eb : (5000 : ℚ) + 3000 = 8000 := by norm_num
  have h2a : findWalletById (transferFunds ⟨[⟨"wa", "ua", 10000, "1111111111111"⟩,
      ⟨"wb", "ub", 5000, "2222222222222"⟩], [], 0⟩
      "ua" "2222222222222" 3000 none).2.1 "wa" =
      some ⟨"wa", "ua", (10000 : ℚ) - 3000, "1111111111111"⟩ := h2
  have h3a : findWalletById (transferFunds ⟨[⟨"wa", "ua", 10000, "1111111111111"⟩,
      ⟨"wb", "ub", 5000, "2222222222222"⟩], [], 0⟩
      "ua" "2222222222222" 3000 none).2.1 "wb" =
      some ⟨"wb", "ub", (5000 : ℚ) + 3000, "2222222222222"⟩ := h3
  rw [ea] at h2a
  rw [eb] at h3a
  exact ⟨h1, h2a, h3a, h4⟩

/-- C8: the balance written by every debit and credit mutation is the
computed new balance rounded to two fractional digits, half away from
zero — characterised by: the result is a two-decimal value within 1/200
of the exact value, and an exact tie is resolved away from zero.  The
rounding is applied to the computed new balance at the point of mutation,
not to the inputs beforehand: pre-rounding the inputs gives a different
result on a witness input. -/
theorem rounding_half_away_at_mutation :
    (∀ x : ℚ, TwoDec (toFixed2 x)) ∧
    (∀ x : ℚ, |x - toFixed2 x| ≤ 1/200) ∧
    (∀ x : ℚ, |x - toFixed2 x| = 1/200 → |toFixed2 x| = |x| + 1/200) ∧
    (∀ (w : Wallet) (a : ℚ), (Wallet.credit w a).balance = toFixed2 (w.balance + a)) ∧
    (∀ (w : Wallet) (a : ℚ), ¬ w.balance < a →
      Wallet.debit w a = Except.ok { w with balance := toFixed2 (w.balance - a) }) ∧
    (∀ (db : DB) (uid : String) (a : ℚ) (d : String) (w : Wallet),
      findWalletByUserId db uid = some w → ¬ w.balance < a →
      ∃ db2, debitWallet db uid a d = Except.ok db2 ∧
        findWalletById db2 w.id = some { w with balance := toFixed2 (w.balance - a) }) ∧
    (∀ (db : DB) (uid : String) (a : ℚ) (d : String) (w : Wallet),
      findWalletByUserId db uid = some w →
      ∃ db2, creditWallet db uid a d = Except.ok db2 ∧
        findWalletById db2 w.id = some { w with balance := toFixed2 (w.balance + a) }) ∧
    (∃ (w : Wallet) (a : ℚ),
      (Wallet.credit w a).balance ≠ toFixed2 w.balance + toFixed2 a) := by
  refine ⟨toFixed2_twoDec, abs_sub_toFixed2_le, fun x => toFixed2_tie_away,
    fun w a => rfl, ?_, ?_, ?_, ?_⟩
  · intro w a hb
    simp only [Wallet.debit, if_neg hb]
  · intro db uid a d w hw hb
    cases hdeb : debitWallet db uid a d with
    | error msg =>
      exfalso
      simp only [debitWallet, hw, if_neg hb] at hdeb
      exact absurd hdeb (by simp)
    | ok db2 =>
      refine ⟨db2, rfl, ?_⟩
      simp only [debitWallet, hw, if_neg hb, Except.ok.injEq] at hdeb
      rw [← hdeb]
      exact find?_id_replaceBy_self db.wallets w _ (List.mem_of_find?_eq_some hw) rfl
  · intro db uid a d w hw
    cases hdeb : creditWallet db uid a d with
    | error msg =>
      exfalso
      simp only [creditWallet, hw] at hdeb
      exact absurd hdeb (by simp)
    | ok db2 =>
      refine ⟨db2, rfl, ?_⟩
      simp only [creditWallet, hw, Except.ok.injEq] at hdeb
      rw [← hdeb]
      exact find?_id_replaceBy_self db.wallets w _ (List.mem_of_find?_eq_some hw) rfl
  · refine ⟨⟨"w1", "u1", 1/200, "1234567890123"⟩, 1/200, ?_⟩
    show toFixed2 ((1:ℚ)/200 + 1/200) ≠ toFixed2 ((1:ℚ)/200) + toFixed2 ((1:ℚ)/200)
    have e1 : toFixed2 ((1:ℚ)/200 + 1/200) = 1/100 := by with_unfolding_all rfl
    have e2 : toFixed2 ((1:ℚ)/200) = 1/100 := by with_unfolding_all rfl
    rw [e1, e2]
    norm_num

/-- C8 witness: concrete mutations — crediting 0.125 onto 100 writes
100.13 (rounded at the mutation); tie 0.005 rounds away from zero to
0.01; the separation pair shows pre-rounding the inputs would differ. -/
theorem rounding_half_away_at_mutation_witness :
    TwoDec (toFixed2 (1/8 : ℚ)) ∧
    (Wallet.credit ⟨"w1", "u1", 100, "1234567890123"⟩ (1/8)).balance =
      toFixed2 ((100 : ℚ) + 1/8) ∧
    Wallet.debit ⟨"w1", "u1", 100, "1234567890123"⟩ 50 =
      Except.ok ⟨"w1", "u1", toFixed2 ((100 : ℚ) - 50), "1234567890123"⟩ ∧
    (∃ db2, debitWallet ⟨[⟨"w1", "u1", 100, "1234567890123"⟩], [], 0⟩ "u1" 50 "d" =
        Except.ok db2 ∧
      findWalletById db2 "w1" = some ⟨"w1", "u1", toFixed2 ((100 : ℚ) - 50), "1234567890123"⟩) ∧
    (∃ db2, creditWallet ⟨[⟨"w1", "u1", 100, "1234567890123"⟩], [], 0⟩ "u1" 50 "d" =
        Except.ok db2 ∧
      findWalletById db2 "w1" = some ⟨"w1", "u1", toFixed2 ((100 : ℚ) + 50), "1234567890123"⟩) :=
  ⟨rounding_half_away_at_mutation.1 (1/8),
   rounding_half_away_at_mutation.2.2.2.1 ⟨"w1", "u1", 100, "1234567890123"⟩ (1/8),
   rounding_half_away_at_mutation.2.2.2.2.1 ⟨"w1", "u1", 100, "1234567890123"⟩ 50
     (by norm_num),
   rounding_half_away_at_mutation.2.2.2.2.2.1 _ "u1" 50 "d"
     ⟨"w1", "u1", 100, "1234567890123"⟩ (by decide) (by norm_num),
   rounding_half_away_at_mutation.2.2.2.2.2.2.1 _ "u1" 50 "d"
     ⟨"w1", "u1", 100, "1234567890123"⟩ (by decide)⟩

/-- C9 amended: the wallet number is drawn as
`Math.floor(1000000000000 + Math.random() * 9000000000000)`, always a
13-digit number; onboarding performs a single draw with no uniqueness
check and no retry: if the drawn number collides with an existing wallet
number the creation fails on the unique constraint, otherwise the wallet
row is inserted with balance 0. -/
theorem wallet_number_generation (r : ℚ) (h0 : 0 ≤ r) (h1 : r < 1) :
    10 ^ 12 ≤ generateWalletNumber r ∧
    generateWalletNumber r < 10 ^ 13 ∧
    (Nat.digits 10 (generateWalletNumber r)).length = 13 ∧
    (∀ (db : DB) (uid : String),
      db.wallets.any (fun x => decide (x.walletNumber =
        toString (generateWalletNumber r))) = true →
      createWalletForNewUser db uid r = Except.error "walletNumber must be unique") ∧
    (∀ (db : DB) (uid : String),
      db.wallets.any (fun x => decide (x.walletNumber =
        toString (generateWalletNumber r))) = false →
      createWalletForNewUser db uid r = Except.ok { db with wallets := db.wallets ++
        [⟨uid ++ " wallet", uid, 0, toString (generateWalletNumber r)⟩] }) := by
  have hlo : (10 ^ 12 : ℤ) ≤ ⌊(1000000000000 : ℚ) + r * 9000000000000⌋ := by
    rw [Int.le_floor]
    push_cast
    nlinarith
  have hhi : ⌊(1000000000000 : ℚ) + r * 9000000000000⌋ < 10 ^ 13 := by
    rw [Int.floor_lt]
    push_cast
    nlinarith
  have hlo2 : 10 ^ 12 ≤ generateWalletNumber r := by
    unfold generateWalletNumber
    omega
  have hhi2 : generateWalletNumber r < 10 ^ 13 := by
    unfold generateWalletNumber
    omega
  refine ⟨hlo2, hhi2, ?_, ?_, ?_⟩
  · rw [Nat.digits_len 10 _ (by norm_num) (by omega)]
    rw [Nat.log_eq_of_pow_le_of_lt_pow hlo2 hhi2]
  · intro db uid hcoll
    simp only [createWalletForNewUser, walletCreate, hcoll, if_true]
  · intro db uid hcoll
    simp only [createWalletForNewUser, walletCreate, hcoll, Bool.false_eq_true, if_false]

/-- C9 amended witness: the draw 1/2 yields the 13-digit number
5500000000000; against a store already holding that number the creation
fails (no retry), and against an empty store it succeeds. -/
theorem wallet_number_generation_witness :
    (Nat.digits 10 (generateWalletNumber (1/2))).length = 13 ∧
    createWalletForNewUser ⟨[⟨"w1", "u1", 0, "5500000000000"⟩], [], 0⟩ "u2" (1/2) =
      Except.error "walletNumber must be unique" ∧
    createWalletForNewUser ⟨[], [], 0⟩ "u2" (1/2) =
      Except.ok ⟨[⟨"u2" ++ " wallet", "u2", 0, toString (generateWalletNumber (1/2))⟩], [], 0⟩ :=
  have h := wallet_number_generation (1/2) (by norm_num) (by norm_num)
  ⟨h.2.2.1,
   h.2.2.2.1 ⟨[⟨"w1", "u1", 0, "5500000000000"⟩], [], 0⟩ "u2"
     (by with_unfolding_all rfl),
   h.2.2.2.2 ⟨[], [], 0⟩ "u2" rfl⟩

/-- C9 counterexample: generation is not collision-checked or retried —
with wallet number 5500000000000 already present and a draw of 1/2 (which
maps to exactly that number), creation fails outright instead of retrying
another draw as the claim requires, and the failure is the unique
constraint, not an AlreadyExists owner check. -/
theorem wallet_number_collision_not_retried :
    createWalletForNewUser ⟨[⟨"w1", "u1", 0, "5500000000000"⟩], [], 0⟩ "u2" (1/2) =
      Except.error "walletNumber must be unique" := by
  with_unfolding_all rfl

/-- Replacing a transaction row that shares the id of a present row makes
the id lookup return the replacement. -/
theorem find?_id_replaceBy_self_txn (l : List Transaction) (t t1 : Transaction)
    (hmem : t ∈ l) (hid : t1.id = t.id) :
    (replaceBy Transaction.id l t1).find? (fun y => decide (y.id = t.id)) = some t1 := by
  have hex : (l.find? (fun y => decide (y.id = t.id))).isSome :=
    List.find?_isSome.mpr ⟨t, hmem, by simp⟩
  obtain ⟨x, hx⟩ := Option.isSome_iff_exists.mp hex
  have hxid : x.id = t.id := by
    have h2 := List.find?_some hx
    simpa using h2
  exact find?_replaceBy Transaction.id _ l t1 x hx (by rw [hxid, hid]) (by simp [hid])

/-- C7: the amount credited on the reconciliation success path is the
verified event amount converted from kobo to naira (divided by 100); it
does not depend on the amount stored on the ledger entry at deposit
request time (the client-asserted figure): overwriting that stored amount
with any other value yields the same credited balance. -/
theorem credit_uses_verified_amount
    (db : DB) (r : String) (v a2 : ℚ) (txn : Transaction) (w : Wallet)
    (ht : findTxnByReference db r = some txn)
    (hs : txn.status ≠ TransactionStatus.success)
    (hw : findWalletByUserId db txn.userId = some w) :
    findWalletById (processSuccessfulCharge db ⟨r, v, "success"⟩).2 w.id =
      some { w with balance := toFixed2 (w.balance + v / 100) } ∧
    findWalletById (processSuccessfulCharge (saveTxn db { txn with amount := a2 })
        ⟨r, v, "success"⟩).2 w.id =
      some { w with balance := toFixed2 (w.balance + v / 100) } := by
  constructor
  · rw [processSuccessfulCharge_eq db ⟨r, v, "success"⟩ txn w ht hs hw]
    exact find?_id_replaceBy_self db.wallets w _ (List.mem_of_find?_eq_some hw) rfl
  · have href : txn.reference = some r := by
      have h2 := List.find?_some ht
      simpa using h2
    have ht2 : findTxnByReference (saveTxn db { txn with amount := a2 }) r =
        some { txn with amount := a2 } :=
      find?_replaceBy Transaction.id _ db.transactions _ txn ht rfl (by simp [href])
    have hw2 : findWalletByUserId (saveTxn db { txn with amount := a2 })
        ({ txn with amount := a2 } : Transaction).userId = some w := hw
    rw [processSuccessfulCharge_eq _ ⟨r, v, "success"⟩ { txn with amount := a2 } w ht2
      (by simpa using hs) hw2]
    exact find?_id_replaceBy_self db.wallets w _ (List.mem_of_find?_eq_some hw) rfl

/-- C7 witness: a deposit entry recorded with a client-asserted amount of
100 is credited 5000 naira because the verified event says 500000 kobo,
and changing the stored amount to 999999 changes nothing. -/
theorem credit_uses_verified_amount_witness :
    findWalletById (processSuccessfulCharge
        ⟨[⟨"w1", "u1", 0, "1234567890123"⟩],
         [⟨0, "u1", TransactionType.deposit, 100, TransactionStatus.pending,
           some "ref_1", none, none, none, none⟩], 1⟩
        ⟨"ref_1", 500000, "success"⟩).2 "w1" =
      some ⟨"w1", "u1", 5000, "1234567890123"⟩ ∧
    findWalletById (processSuccessfulCharge
        (saveTxn ⟨[⟨"w1", "u1", 0, "1234567890123"⟩],
         [⟨0, "u1", TransactionType.deposit, 100, TransactionStatus.pending,
           some "ref_1", none, none, none, none⟩], 1⟩
          { (⟨0, "u1", TransactionType.deposit, 100, TransactionStatus.pending,
             some "ref_1", none, none, none, none⟩ : Transaction) with
            amount := 999999 })
        ⟨"ref_1", 500000, "success"⟩).2 "w1" =
      some ⟨"w1", "u1", 5000, "1234567890123"⟩ := by
  have h := credit_uses_verified_amount
    ⟨[⟨"w1", "u1", 0, "1234567890123"⟩],
     [⟨0, "u1", TransactionType.deposit, 100, TransactionStatus.pending,
       some "ref_1", none, none, none, none⟩], 1⟩
    "ref_1" 500000 999999
    ⟨0, "u1", TransactionType.deposit, 100, TransactionStatus.pending,
      some "ref_1", none, none, none, none⟩
    ⟨"w1", "u1", 0, "1234567890123"⟩
    (by decide) (by decide) (by decide)
  have e : toFixed2 ((0 : ℚ) + 500000 / 100) = 5000 := by with_unfolding_all rfl
  obtain ⟨h1, h2⟩ := h
  rw [e] at h1 h2
  exact ⟨h1, h2⟩

/-- C4 counterexample: a deposit entry already in `success` receiving a
failed-charge event is moved to `failed` — the forbidden
success-to-failed transition is performed rather than skipped. -/
theorem status_transition_counterexample :
    findTxnByReference
      ⟨[], [⟨0, "u1", TransactionType.deposit, 5000, TransactionStatus.success,
        some "r1", none, none, none, none⟩], 1⟩ "r1" =
      some ⟨0, "u1", TransactionType.deposit, 5000, TransactionStatus.success,
        some "r1", none, none, none, none⟩ ∧
    ((findTxnById (processFailedCharge
      ⟨[], [⟨0, "u1", TransactionType.deposit, 5000, TransactionStatus.success,
        some "r1", none, none, none, none⟩], 1⟩ ⟨"r1", 0, "failed"⟩) 0).map
      Transaction.status) = some TransactionStatus.failed := by
  exact ⟨by decide, by decide⟩

/-- C4 amended: only the successful-charge path guards repeated
transitions (an entry already in `success` is skipped); the failed-charge
path moves any found entry to `failed` unconditionally, whatever its
current status, and the transfer-reversed path moves any found withdrawal
entry to `reversed` unconditionally, whatever its current status. -/
theorem status_transitions_unguarded_except_success_path :
    (∀ (db : DB) (e : ChargeEvent) (txn : Transaction),
      findTxnByReference db e.reference = some txn →
      (findTxnById (processFailedCharge db e) txn.id).map Transaction.status =
        some TransactionStatus.failed) ∧
    (∀ (db : DB) (e : ChargeEvent) (txn : Transaction),
      findTxnByReference db e.reference = some txn →
      txn.status = TransactionStatus.success →
      processSuccessfulCharge db e = (ChargeOutcome.alreadyProcessed, db)) ∧
    (∀ (db : DB) (e : ChargeEvent) (txn : Transaction),
      findWithdrawalByReference db e.reference = some txn →
      (findTxnById (processTransferReversed db e) txn.id).map Transaction.status =
        some TransactionStatus.reversed) := by
  refine ⟨?_, ?_, ?_⟩
  · intro db e txn ht
    have hmem : txn ∈ db.transactions := List.mem_of_find?_eq_some ht
    have hfind : findTxnById (processFailedCharge db e) txn.id =
        some (txn.updateStatus TransactionStatus.failed (some (chargeMeta e))) := by
      simp only [processFailedCharge, ht]
      exact find?_id_replaceBy_self_txn db.transactions txn _ hmem rfl
    rw [hfind]
    rfl
  · intro db e txn ht hs
    exact processSuccessfulCharge_already db e txn ht hs
  · intro db e txn ht
    have hmem : txn ∈ db.transactions := List.mem_of_find?_eq_some ht
    simp only [processTransferReversed, ht]
    rcases hwq : findWalletByUserId
        (saveTxn db (txn.updateStatus TransactionStatus.reversed (some (chargeMeta e))))
        txn.userId with _ | wallet
    · have hfind : findTxnById
          (saveTxn db (txn.updateStatus TransactionStatus.reversed (some (chargeMeta e))))
          txn.id =
          some (txn.updateStatus TransactionStatus.reversed (some (chargeMeta e))) :=
        find?_id_replaceBy_self_txn db.transactions txn _ hmem rfl
      rw [hfind]
      rfl
    · have hfind : findTxnById
          (saveWallet
            (saveTxn db (txn.updateStatus TransactionStatus.reversed (some (chargeMeta e))))
            { wallet with balance := toFixed2 (wallet.balance + txn.amount) })
          txn.id =
          some (txn.updateStatus TransactionStatus.reversed (some (chargeMeta e))) :=
        find?_id_replaceBy_self_txn db.transactions txn _ hmem rfl
      rw [hfind]
      rfl

/-- C4 amended witness: a success entry is moved to failed by a
failed-charge event; a success entry is skipped by a success-charge event;
a pending withdrawal entry is moved to reversed by a reversal event. -/
theorem status_transitions_unguarded_witness :
    ((findTxnById (processFailedCharge
      ⟨[], [⟨0, "u1", TransactionType.deposit, 5000, TransactionStatus.success,
        some "r1", none, none, none, none⟩], 1⟩ ⟨"r1", 0, "failed"⟩) 0).map
      Transaction.status) = some TransactionStatus.failed ∧
    processSuccessfulCharge
      ⟨[], [⟨0, "u1", TransactionType.deposit, 5000, TransactionStatus.success,
        some "r1", none, none, none, none⟩], 1⟩ ⟨"r1", 0, "success"⟩ =
      (ChargeOutcome.alreadyProcessed,
       ⟨[], [⟨0, "u1", TransactionType.deposit, 5000, TransactionStatus.success,
        some "r1", none, none, none, none⟩], 1⟩) ∧
    ((findTxnById (processTransferReversed
      ⟨[], [⟨0, "u1", TransactionType.withdrawal, 5000, TransactionStatus.pending,
        some "r2", none, none, none, none⟩], 1⟩ ⟨"r2", 0, "reversed"⟩) 0).map
      Transaction.status) = some TransactionStatus.reversed :=
  ⟨status_transitions_unguarded_except_success_path.1 _ _
     ⟨0, "u1", TransactionType.deposit, 5000, TransactionStatus.success,
       some "r1", none, none, none, none⟩ (by decide),
   status_transitions_unguarded_except_success_path.2.1 _ _
     ⟨0, "u1", TransactionType.deposit, 5000, TransactionStatus.success,
       some "r1", none, none, none, none⟩ (by decide) (by decide),
   status_transitions_unguarded_except_success_path.2.2 _ _
     ⟨0, "u1", TransactionType.withdrawal, 5000, TransactionStatus.pending,
       some "r2", none, none, none, none⟩ (by decide)⟩

/-- C2: when the sender wallet balance read under lock is below the
requested amount, the transfer aborts with the insufficient-funds failure
and the store is returned exactly as it was: no wallet balance and no
ledger row changes. -/
theorem insufficient_funds_aborts_without_write
    (db : DB) (senderId recipientWalletNumber : String) (amount : ℚ)
    (description : Option String) (sw : Wallet)
    (hs : findWalletByUserId db senderId = some sw)
    (hb : sw.balance < amount) :
    transferFunds db senderId recipientWalletNumber amount description =
      (⟨false, "Insufficient balance", none⟩, db, [sw.id]) := by
  simp only [transferFunds, hs, if_pos hb]

/-- C2 witness: the spec scenario — balance 100, transfer of 101 is
rejected with the insufficient-funds failure and the store is unchanged. -/
theorem insufficient_funds_aborts_without_write_witness :
    transferFunds ⟨[⟨"wa", "ua", 100, "1111111111111"⟩], [], 0⟩
        "ua" "2222222222222" 101 none =
      (⟨false, "Insufficient balance", none⟩,
       ⟨[⟨"wa", "ua", 100, "1111111111111"⟩], [], 0⟩, ["wa"]) :=
  insufficient_funds_aborts_without_write _ _ _ _ _
    ⟨"wa", "ua", 100, "1111111111111"⟩ (by decide) (by decide)

/-- C5 counterexample: between the same two wallets, a transfer from A to
B acquires the row locks as [A, B] while a transfer from B to A acquires
them as [B, A]: the two opposite-direction transfers do not request the
locks in the same order, so there is no fixed global lock order. -/
theorem opposite_transfers_lock_in_opposite_order :
    (transferFunds ⟨[⟨"wa", "ua", 10000, "1111111111111"⟩,
        ⟨"wb", "ub", 5000, "2222222222222"⟩], [], 0⟩
        "ua" "2222222222222" 3000 none).2.2 = ["wa", "wb"] ∧
    (transferFunds ⟨[⟨"wa", "ua", 10000, "1111111111111"⟩,
        ⟨"wb", "ub", 5000, "2222222222222"⟩], [], 0⟩
        "ub" "1111111111111" 3000 none).2.2 = ["wb", "wa"] ∧
    (["wa", "wb"] : List String) ≠ ["wb", "wa"] := by
  refine ⟨by decide, by decide, by decide⟩

/-- C5 amended: the locks are acquired in role order — sender wallet row
first, then recipient wallet row — whenever both rows are reached, so the
order depends on which wallet sends, not on a fixed global ordering. -/
theorem lock_order_sender_then_recipient
    (db : DB) (senderId recipientWalletNumber : String) (amount : ℚ)
    (description : Option String) (sw rw : Wallet)
    (hs : findWalletByUserId db senderId = some sw)
    (hb : ¬ sw.balance < amount)
    (hr : findWalletByNumber db recipientWalletNumber = some rw) :
    (transferFunds db senderId recipientWalletNumber amount description).2.2 =
      [sw.id, rw.id] := by
  simp only [transferFunds, hs, hr, if_neg hb]
  by_cases hself : rw.userId = senderId
  · rw [if_pos hself]
  · rw [if_neg hself]

/-- C5 amended witness: on a concrete two-wallet store the lock trace of a
successful transfer is sender first, recipient second. -/
theorem lock_order_sender_then_recipient_witness :
    (transferFunds ⟨[⟨"wa", "ua", 10000, "1111111111111"⟩,
        ⟨"wb", "ub", 5000, "2222222222222"⟩], [], 0⟩
        "ua" "2222222222222" 3000 none).2.2 = ["wa", "wb"] :=
  lock_order_sender_then_recipient _ _ _ _ _
    ⟨"wa", "ua", 10000, "1111111111111"⟩ ⟨"wb", "ub", 5000, "2222222222222"⟩
    (by decide) (by decide) (by decide)

/-- C6 counterexample: a self-transfer request that passes the Joi schema
(13-character wallet number, amount within bounds) is rejected only inside
the service with the self-transfer error, after both row locks were
acquired — the lock trace is not empty. -/
theorem self_transfer_rejected_after_locking :
    controllerTransfer ⟨[⟨"w1", "u1", 500, "1234567890123"⟩], [], 0⟩
        "u1" "1234567890123" 100 none =
      (⟨false, "Cannot transfer to yourself", none⟩,
       ⟨[⟨"w1", "u1", 500, "1234567890123"⟩], [], 0⟩, ["w1", "w1"]) ∧
    (["w1", "w1"] : List String) ≠ [] := by
  refine ⟨by decide, by decide⟩

/-- C6 amended: amount-bound and wallet-number-shape violations are
rejected by the controller schema before any lock is acquired (empty lock
trace), but a self-transfer passes the schema and is rejected only after
the sender and recipient row locks have both been acquired. -/
theorem validation_before_lock_except_self_transfer :
    (∀ (db : DB) (senderId walletNumber : String) (amount : ℚ)
      (description : Option String),
      transferSchemaValid walletNumber amount description = false →
      controllerTransfer db senderId walletNumber amount description =
        (⟨false, "Validation error", none⟩, db, [])) ∧
    (∀ (db : DB) (senderId walletNumber : String) (amount : ℚ)
      (description : Option String) (sw rw : Wallet),
      transferSchemaValid walletNumber amount description = true →
      findWalletByUserId db senderId = some sw →
      ¬ sw.balance < amount →
      findWalletByNumber db walletNumber = some rw →
      rw.userId = senderId →
      controllerTransfer db senderId walletNumber amount description =
        (⟨false, "Cannot transfer to yourself", none⟩, db, [sw.id, rw.id])) := by
  constructor
  · intro db senderId walletNumber amount description hv
    simp only [controllerTransfer, hv, Bool.false_eq_true, if_false]
  · intro db senderId walletNumber amount description sw rw hv hs hb hr hself
    simp only [controllerTransfer, hv, if_true, transferFunds, hs, hr,
      if_neg hb, if_pos hself]

/-- C6 amended witness: a rejected amount below the minimum takes no lock,
and a concrete self-transfer is rejected with both locks taken. -/
theorem validation_before_lock_except_self_transfer_witness :
    controllerTransfer ⟨[⟨"w1", "u1", 500, "1234567890123"⟩], [], 0⟩
        "u1" "1234567890123" 5 none =
      (⟨false, "Validation error", none⟩,
       ⟨[⟨"w1", "u1", 500, "1234567890123"⟩], [], 0⟩, []) ∧
    controllerTransfer ⟨[⟨"w1", "u1", 500, "1234567890123"⟩], [], 0⟩
        "u1" "1234567890123" 100 none =
      (⟨false, "Cannot transfer to yourself", none⟩,
       ⟨[⟨"w1", "u1", 500, "1234567890123"⟩], [], 0⟩, ["w1", "w1"]) :=
  ⟨validation_before_lock_except_self_transfer.1 _ _ _ _ _ (by decide),
   validation_before_lock_except_self_transfer.2 _ _ _ _ _
     ⟨"w1", "u1", 500, "1234567890123"⟩ ⟨"w1", "u1", 500, "1234567890123"⟩
     (by decide) (by decide) (by decide) (by decide) (by decide)⟩

/-- C10: the balance query is total — it always answers with a success
response; when the user has no wallet row it answers 0, which is exactly
the answer for a user whose wallet exists with balance 0, so the two cases
are indistinguishable through this operation. -/
theorem get_balance_total_absent_is_zero
    (db dbz : DB) (userId : String) (w : Wallet)
    (h1 : findWalletByUserId db userId = none)
    (h2 : findWalletByUserId dbz userId = some w)
    (h3 : w.balance = 0) :
    getBalance db userId = ⟨true, 0⟩ ∧
    getBalance db userId = getBalance dbz userId ∧
    (∀ (d : DB) (u : String), (getBalance d u).success = true) := by
  refine ⟨?_, ?_, fun d u => rfl⟩
  · simp [getBalance, getWalletBalance, h1]
  · simp [getBalance, getWalletBalance, h1, h2, h3]

/-- C10 witness: an empty store and a store holding a zero-balance wallet
give the same successful zero answer. -/
theorem get_balance_total_absent_is_zero_witness :
    getBalance ⟨[], [], 0⟩ "u1" = ⟨true, 0⟩ ∧
    getBalance ⟨[], [], 0⟩ "u1" =
      getBalance ⟨[⟨"w1", "u1", 0, "1234567890123"⟩], [], 0⟩ "u1" :=
  ⟨(get_balance_total_absent_is_zero ⟨[], [], 0⟩
      ⟨[⟨"w1", "u1", 0, "1234567890123"⟩], [], 0⟩ "u1"
      ⟨"w1", "u1", 0, "1234567890123"⟩ (by decide) (by decide) (by decide)).1,
   (get_balance_total_absent_is_zero ⟨[], [], 0⟩
      ⟨[⟨"w1", "u1", 0, "1234567890123"⟩], [], 0⟩ "u1"
      ⟨"w1", "u1", 0, "1234567890123"⟩ (by decide) (by decide) (by decide)).2.1⟩

end WalletSvc
